import Mathlib

/-!
Verification development for the k-means clustering module
(`src/methods/k-means/src/pg_gp/kmeans.py`).

The module orchestrates k-means over a SQL store.  We embed the
orchestration logic shallowly:

* points and centroids are rows (`Pt`, `Asg`, `Cent`) whose positions live
  in an arbitrary type `α`;
* the sparse-vector collaborators `l2norm` (used only through distance
  comparisons and sums) and `_kmeans_meanPosition` are not part of the
  source file; per the spec they are external primitives, so they are
  passed as parameters `d : α → α → ℚ` and `meanPos : List α → α`
  (SQL float arithmetic is idealised as exact rational arithmetic);
* `_kmeans_closestID` is likewise not in the source file and is
  modelled from the spec (nearest centroid, ties broken by lowest id);
* every `plpy.execute` of a SELECT/INSERT is translated into the
  corresponding pure list transformation, and the `ORDER BY random()`
  draws (seeding pools, seeding weights, sampling) are represented by
  oracle parameters constrained exactly as the SQL constrains them.
-/

namespace KmeansSpec

/-- A row of the input table: `(pid, position)`. -/
structure Pt (α : Type) where
  pid : Nat
  pos : α
deriving DecidableEq, Repr

/-- A row of a per-iteration `TempTable`/`output_points` table:
`(pid, position, cid)`. -/
structure Asg (α : Type) where
  pid : Nat
  pos : α
  cid : Nat
deriving DecidableEq, Repr

/-- A row of the `output_centroids` table: `(cid, position)`. -/
structure Cent (α : Type) where
  cid : Nat
  pos : α
deriving DecidableEq, Repr

/-- Pair the entries of the centroid array with their 1-based positions,
dropping the empty (SQL `NULL`) entries. -/
def withIds {α : Type} : Nat → List (Option α) → List (Nat × α)
  | _, [] => []
  | i, none :: rest => withIds (i + 1) rest
  | i, some c :: rest => (i, c) :: withIds (i + 1) rest

/-- Modelled from the spec: `madlib._kmeans_closestID` is a stored
procedure that is not part of `kmeans.py`.  Per §4.3 step 1 of the spec it
returns the id of the centroid of minimum distance to the point, ties
broken by lowest centroid id.  Ids are the 1-based positions in the
centroid array; empty array entries are skipped; an array with no
centroids yields the out-of-band id 0. -/
def closestID {α : Type} (d : α → α → ℚ) (arr : List (Option α)) (x : α) : Nat :=
  match withIds 1 arr with
  | [] => 0
  | c :: cs => (cs.foldl (fun best cand => if d x cand.2 < d x best.2 then cand else best) c).1

/-- The `ArrayOfCentroids` query: `generate_series(1,k) LEFT OUTER JOIN`
the centroid table on `cid`, ordered by the series index.  A missing id
contributes a `NULL` position. -/
def centroidArray {α : Type} (k : Nat) (cents : List (Cent α)) : List (Option α) :=
  (List.range k).map (fun j => (cents.find? (fun c => c.cid = j + 1)).map Cent.pos)

/-- The Assign step (`INSERT INTO TempTable_i SELECT pid, position,
_kmeans_closestID(position, arr) FROM TempTable_(i-1)`). -/
def assignTbl {α : Type} (d : α → α → ℚ) (arr : List (Option α)) (t : List (Asg α)) :
    List (Asg α) :=
  t.map (fun r => ⟨r.pid, r.pos, closestID d arr r.pos⟩)

/-- The Update step (`TRUNCATE output_centroids; INSERT … SELECT
_kmeans_meanPosition(position), cid FROM TempTable_i GROUP BY cid`):
one row per cid occurring in the assignment table, positioned at the mean
of the positions assigned to it. -/
def refreshCents {α : Type} (meanPos : List α → α) (t : List (Asg α)) : List (Cent α) :=
  ((t.map Asg.cid).dedup).map
    (fun c => ⟨c, meanPos ((t.filter (fun r => r.cid = c)).map Asg.pos)⟩)

/-- `count(pid) … GROUP BY cid` for one cid. -/
def cidCount {α : Type} (t : List (Asg α)) (c : Nat) : Nat :=
  t.countP (fun r => r.cid = c)

/-- The change query: the per-cid counts of the new and the old
assignment tables are joined on `cid` (an inner join, so a cid present in
only one of the two tables contributes nothing) and
`SUM(ABS(t1.e - t2.e))` is taken over the joined rows. -/
def innerChangeSum {α : Type} (tNew tOld : List (Asg α)) : ℚ :=
  ((((tNew.map Asg.cid).dedup).filter (fun c => c ∈ tOld.map Asg.cid)).map
    (fun c => |(cidCount tNew c : ℚ) - (cidCount tOld c : ℚ)|)).sum

/-- `rv[0]['sum'] / p_count`: the recorded change fraction.  Note the
divisor is `p_count`, the full input-table count, not the working-set
size. -/
def chgFrac {α : Type} (tNew tOld : List (Asg α)) (pcount : Nat) : ℚ :=
  innerChangeSum tNew tOld / (pcount : ℚ)

/-- The three ways out of the main loop, in the order the code tests
them.  `stabilized` carries the average reported by the corresponding
`info` message. -/
inductive ExitReason where
  | stabilized (avg : ℚ)
  | belowLimit
  | maxIterReached
deriving DecidableEq, Repr

/-- Run-constant data of the main loop: the distance and mean
collaborators, `k`, `p_count` (number of input points) and the
`max_iterations` adjustable (20 in the source). -/
structure LoopCtx (α : Type) where
  d : α → α → ℚ
  meanPos : List α → α
  k : Nat
  pcount : Nat
  maxIter : Nat

/-- Mutable state of the main loop: the current `TempTable_i`, the
`output_centroids` table, the `change_pct` tracking list (initialised to
`[100.0]`), the last `ArrayOfCentroids` temp table, and the iteration
counter `i`. -/
structure LoopState (α : Type) where
  tbl : List (Asg α)
  cents : List (Cent α)
  changePct : List ℚ
  arr : List (Option α)
  i : Nat

/-- One iteration of the main loop (source lines 407-488): build the
centroid array from the current centroid table, assign every working-set
point to its closest centroid, refresh the centroid table from the new
assignment, record the change fraction when `i > 1`, then test the three
exit conditions in the order of the code's `if/elif` chain. -/
def stepIter {α : Type} (ctx : LoopCtx α) (st : LoopState α) :
    LoopState α × Option ExitReason :=
  let i := st.i + 1
  let arr := centroidArray ctx.k st.cents
  let tNew := assignTbl ctx.d arr st.tbl
  let cents2 := refreshCents ctx.meanPos tNew
  let cp := if 1 < i then st.changePct ++ [chgFrac tNew st.tbl ctx.pcount] else st.changePct
  let exitNow : Option ExitReason :=
    if 3 < i ∧ cp.getD (i - 4) 0 - cp.getD (i - 1) 0 < 0 then
      some (.stabilized ((cp.getD (i - 4) 0 + cp.getD (i - 3) 0 +
        cp.getD (i - 2) 0 + cp.getD (i - 1) 0) / 4))
    else if cp.getD (i - 1) 0 < 1 / 1000 then some .belowLimit
    else if i = ctx.maxIter then some .maxIterReached
    else none
  (⟨tNew, cents2, cp, arr, i⟩, exitNow)

/-- The `while done == 0` loop.  The source loop has no fuel; termination
is exactly what claim C6 asserts, so the embedding takes explicit fuel
and we prove that `max_iterations` fuel always suffices and that any
larger fuel computes the same run. -/
def runLoop {α : Type} (ctx : LoopCtx α) : Nat → LoopState α → LoopState α × Option ExitReason
  | 0, st => (st, none)
  | f + 1, st =>
    match stepIter ctx st with
    | (st2, some r) => (st2, some r)
    | (st2, none) => runLoop ctx f st2

/-- `TempTable0`: the working set with every `cid` initialised to 0. -/
def tempTable0 {α : Type} (working : List (Pt α)) : List (Asg α) :=
  working.map (fun p => ⟨p.pid, p.pos, 0⟩)

/-- Loop state on entry to the main loop: `TempTable0`, the seeded
centroids, `change_pct = [100.0]`, no centroid array yet, `i = 0`. -/
def initState {α : Type} (working : List (Pt α)) (seeds : List (Cent α)) : LoopState α :=
  ⟨tempTable0 working, seeds, [100], [], 0⟩

/-- The expansion query (source lines 493-503): every point of the full
input table is assigned by `_kmeans_closestID` against the
`ArrayOfCentroids` temp table left over from the last loop iteration. -/
def expandAssign {α : Type} (d : α → α → ℚ) (pop : List (Pt α)) (arr : List (Option α)) :
    List (Asg α) :=
  pop.map (fun p => ⟨p.pid, p.pos, closestID d arr p.pos⟩)

/-- The goodness-of-fit join (source lines 518-522): one `l2norm` term
per pair of an output point and a centroid row with equal cid. -/
def gofTerms {α : Type} (d : α → α → ℚ) (pts : List (Asg α)) (cents : List (Cent α)) :
    List ℚ :=
  (pts.map (fun p => (cents.filter (fun c => c.cid = p.cid)).map (fun c => d p.pos c.pos))).flatten

/-- `sum(l2norm(p.position - c.position)) / count(*)` over the join. -/
def gofScore {α : Type} (d : α → α → ℚ) (pts : List (Asg α)) (cents : List (Cent α)) : ℚ :=
  (gofTerms d pts cents).sum / ((gofTerms d pts cents).length : ℚ)

/-- The goodness branch of `kmeans_run`: the score is computed only when
the flag equals 1, otherwise the computation is skipped
(`gfit = 'not computed'`). -/
def gfitOf {α : Type} (d : α → α → ℚ) (goodness : Int) (pts : List (Asg α))
    (cents : List (Cent α)) : Option ℚ :=
  if goodness = 1 then some (gofScore d pts cents) else none

/-- `min(l2norm(p.position - c.position))` over the current centroid
rows, as in the seeding query Q1. -/
def minDistTo {α : Type} (d : α → α → ℚ) (cs : List (Cent α)) (x : α) : ℚ :=
  match cs.map (fun c => d x c.pos) with
  | [] => 0
  | q :: qs => qs.foldl min q

/-- The seeding procedure `__kmeans_init` (source lines 149-242) as a
relation over its random draws.  `Seeded d pop numC k cs` holds when the
procedure, run over input table `pop` with candidate-pool bound
`numC` (the code's `numCentroids`), can produce the centroid table `cs`
for target count `k`:

* centroid 1 is a uniformly random point (`ORDER BY random() DESC
  LIMIT 1`): any row of `pop`;
* centroid `i+1` is drawn from a candidate pool of
  `min numC |pop|` distinct rows (`ORDER BY random() LIMIT numC`),
  maximising `min_distance_to_current_centroids * random()^0.2`; the
  weights `random()^0.2` lie in `[0,1)` and `ORDER BY … DESC LIMIT 1`
  resolves ties arbitrarily, so the chosen row is any pool row whose
  weighted distance is maximal. -/
inductive Seeded {α : Type} (d : α → α → ℚ) (pop : List (Pt α)) (numC : Nat) :
    Nat → List (Cent α) → Prop where
  | first (p : Pt α) (hp : p ∈ pop) : Seeded d pop numC 1 [⟨1, p.pos⟩]
  | step (k2 : Nat) (cs : List (Cent α)) (pool : List (Pt α)) (w : Nat → ℚ) (j : Nat)
      (hcs : Seeded d pop numC k2 cs)
      (hsub : pool.Subperm pop)
      (hlen : pool.length = min numC pop.length)
      (hj : j < pool.length)
      (hw : ∀ i, i < pool.length → 0 ≤ w i ∧ w i < 1)
      (hmax : ∀ i (hi : i < pool.length),
        minDistTo d cs (pool.get ⟨i, hi⟩).pos * w i ≤
          minDistTo d cs (pool.get ⟨j, hj⟩).pos * w j) :
      Seeded d pop numC (k2 + 1) (cs ++ [⟨k2 + 1, (pool.get ⟨j, hj⟩).pos⟩])

/-- Metadata of the input table consulted by parameter validation. -/
structure TableMeta where
  hasSchemaDot : Bool
  tableKnown : Bool
  hasPid : Bool
  hasPos : Bool
deriving DecidableEq, Repr

/-- The `plpy.error` conditions of the validation phase, in source
order. -/
inductive ValErr where
  | nonPositiveK
  | missingSchema
  | missingTable
  | missingPid
  | missingPosition
  | emptyTable
  | tooFewPoints
  | badGoodness
  | badOutputSchema
deriving DecidableEq, Repr

/-- The validation phase of `kmeans_run` (source lines 289-361), checks
in source order: `k > 0`, schema-qualified table name, table existence,
`pid` column, `position` column, non-empty table, `p_count > k`,
goodness flag in `{0,1}`, output schema existence. -/
def validateParams (k : Int) (meta : TableMeta) (pcount : Nat) (goodness : Int)
    (outSchemaOk : Bool) : Option ValErr :=
  if ¬ (0 < k) then some .nonPositiveK
  else if ¬ meta.hasSchemaDot then some .missingSchema
  else if ¬ meta.tableKnown then some .missingTable
  else if ¬ meta.hasPid then some .missingPid
  else if ¬ meta.hasPos then some .missingPosition
  else if pcount = 0 then some .emptyTable
  else if (pcount : Int) ≤ k then some .tooFewPoints
  else if goodness ≠ 1 ∧ goodness ≠ 0 then some .badGoodness
  else if ¬ outSchemaOk then some .badOutputSchema
  else none

/-- Phases of `kmeans_run` after validation, in execution order.
`seeded` stands for the whole of `__kmeans_init`, including the creation
of the two output tables. -/
inductive Phase where
  | validated
  | seeded
  | iterated
deriving DecidableEq, Repr

/-- The control skeleton of `kmeans_run`: every validation check runs
before `__kmeans_init` is invoked (source line 374), and a validation
failure raises `plpy.error`, so no later phase executes and no output
table is created. -/
def kmeansGate (k : Int) (meta : TableMeta) (pcount : Nat) (goodness : Int)
    (outSchemaOk : Bool) : List Phase × Option ValErr :=
  match validateParams k meta pcount goodness outSchemaOk with
  | some e => ([], some e)
  | none => ([.validated, .seeded, .iterated], none)

/-- One-dimensional sparse vectors: `l2norm(a - b) = |a - b|`.  Used to
instantiate the distance collaborator on concrete runs. -/
def absd (a b : ℚ) : ℚ := |a - b|

/-- Elementwise mean of one-dimensional vectors, instantiating
`_kmeans_meanPosition` on concrete runs. -/
def qmean (l : List ℚ) : ℚ := l.sum / (l.length : ℚ)

/-! ### Loop control lemmas -/

theorem stepIter_fst_i {α : Type} (ctx : LoopCtx α) (st : LoopState α) :
    (stepIter ctx st).1.i = st.i + 1 := rfl

theorem stepIter_isSome_of_maxIter {α : Type} (ctx : LoopCtx α) (st : LoopState α)
    (h : st.i + 1 = ctx.maxIter) : ((stepIter ctx st).2).isSome = true := by
  simp only [stepIter]
  split_ifs <;> simp_all

theorem runLoop_halts {α : Type} (ctx : LoopCtx α) :
    ∀ (f : Nat) (st : LoopState α), st.i < ctx.maxIter → ctx.maxIter ≤ st.i + f →
      ((runLoop ctx f st).2).isSome = true ∧ (runLoop ctx f st).1.i ≤ ctx.maxIter := by
  intro f
  induction f with
  | zero => intro st h1 h2; omega
  | succ f ih =>
    intro st h1 h2
    cases hs : stepIter ctx st with
    | mk st2 r =>
      have hi : st2.i = st.i + 1 := by
        have h0 : (stepIter ctx st).1.i = st.i + 1 := rfl
        rw [hs] at h0
        exact h0
      cases r with
      | some e =>
        simp only [runLoop, hs]
        simp only [Option.isSome_some, true_and]
        have hne : st.i + 1 = ctx.maxIter ∨ st.i + 1 < ctx.maxIter := by omega
        omega
      | none =>
        have hnm : st.i + 1 ≠ ctx.maxIter := by
          intro heq
          have := stepIter_isSome_of_maxIter ctx st heq
          rw [hs] at this
          simp at this
        simp only [runLoop, hs]
        exact ih st2 (by omega) (by omega)

theorem runLoop_fuel_add {α : Type} (ctx : LoopCtx α) :
    ∀ (f g : Nat) (st : LoopState α), st.i < ctx.maxIter → ctx.maxIter ≤ st.i + f →
      runLoop ctx (f + g) st = runLoop ctx f st := by
  intro f
  induction f with
  | zero => intro g st h1 h2; omega
  | succ f ih =>
    intro g st h1 h2
    have hadd : f + 1 + g = (f + g) + 1 := by omega
    rw [hadd]
    cases hs : stepIter ctx st with
    | mk st2 r =>
      have hi : st2.i = st.i + 1 := by
        have h0 : (stepIter ctx st).1.i = st.i + 1 := rfl
        rw [hs] at h0
        exact h0
      cases r with
      | some e => simp only [runLoop, hs]
      | none =>
        have hnm : st.i + 1 ≠ ctx.maxIter := by
          intro heq
          have := stepIter_isSome_of_maxIter ctx st heq
          rw [hs] at this
          simp at this
        simp only [runLoop, hs]
        exact ih g st2 (by omega) (by omega)

theorem runLoop_i_advances {α : Type} (ctx : LoopCtx α) :
    ∀ (f : Nat) (st : LoopState α), 1 ≤ f → st.i + 1 ≤ (runLoop ctx f st).1.i := by
  intro f
  induction f with
  | zero => intro st h; omega
  | succ f ih =>
    intro st _
    cases hs : stepIter ctx st with
    | mk st2 r =>
      have hi : st2.i = st.i + 1 := by
        have h0 : (stepIter ctx st).1.i = st.i + 1 := rfl
        rw [hs] at h0
        exact h0
      cases r with
      | some e => simp only [runLoop, hs]; omega
      | none =>
        simp only [runLoop, hs]
        cases f with
        | zero => simp only [runLoop]; omega
        | succ f2 =>
          have := ih st2 (by omega)
          omega

/-- C6.  For every input, the iterative refinement loop terminates, and
it performs at most `max_iterations` iterations (`max_iterations = 20`
in the source); it never runs unboundedly: fuel `max_iterations` always
suffices to reach an exit condition, and any larger fuel computes the
very same run. -/
theorem C6_termination {α : Type} (ctx : LoopCtx α) (working : List (Pt α))
    (seeds : List (Cent α)) (hmax : 1 ≤ ctx.maxIter) :
    ((runLoop ctx ctx.maxIter (initState working seeds)).2).isSome = true ∧
    (runLoop ctx ctx.maxIter (initState working seeds)).1.i ≤ ctx.maxIter ∧
    ∀ f, ctx.maxIter ≤ f →
      runLoop ctx f (initState working seeds) =
        runLoop ctx ctx.maxIter (initState working seeds) := by
  have hi : (initState working seeds).i = 0 := rfl
  have h1 := runLoop_halts ctx ctx.maxIter (initState working seeds) (by omega) (by omega)
  refine ⟨h1.1, h1.2, ?_⟩
  intro f hf
  have : f = ctx.maxIter + (f - ctx.maxIter) := by omega
  rw [this]
  exact runLoop_fuel_add ctx ctx.maxIter (f - ctx.maxIter) (initState working seeds)
    (by omega) (by omega)

theorem C6_termination_witness :
    ((runLoop (LoopCtx.mk absd qmean 1 1 20) 20
        (initState [Pt.mk 1 (0 : ℚ)] [Cent.mk 1 (0 : ℚ)])).2).isSome = true ∧
    (runLoop (LoopCtx.mk absd qmean 1 1 20) 20
        (initState [Pt.mk 1 (0 : ℚ)] [Cent.mk 1 (0 : ℚ)])).1.i ≤ 20 ∧
    ∀ f, 20 ≤ f →
      runLoop (LoopCtx.mk absd qmean 1 1 20) f
          (initState [Pt.mk 1 (0 : ℚ)] [Cent.mk 1 (0 : ℚ)]) =
        runLoop (LoopCtx.mk absd qmean 1 1 20) 20
          (initState [Pt.mk 1 (0 : ℚ)] [Cent.mk 1 (0 : ℚ)]) :=
  C6_termination (LoopCtx.mk absd qmean 1 1 20) [Pt.mk 1 (0 : ℚ)] [Cent.mk 1 (0 : ℚ)]
    (by norm_num)

/-- The `change_pct` list as it stands when the exit conditions of the
iteration `st.i + 1` are tested. -/
def cpAfter {α : Type} (ctx : LoopCtx α) (st : LoopState α) : List ℚ :=
  (stepIter ctx st).1.changePct

theorem stepIter_snd_eq {α : Type} (ctx : LoopCtx α) (st : LoopState α) :
    (stepIter ctx st).2 =
      (if 3 < st.i + 1 ∧
          (cpAfter ctx st).getD (st.i + 1 - 4) 0 - (cpAfter ctx st).getD (st.i + 1 - 1) 0 < 0 then
        some (ExitReason.stabilized (((cpAfter ctx st).getD (st.i + 1 - 4) 0 +
          (cpAfter ctx st).getD (st.i + 1 - 3) 0 + (cpAfter ctx st).getD (st.i + 1 - 2) 0 +
          (cpAfter ctx st).getD (st.i + 1 - 1) 0) / 4))
      else if (cpAfter ctx st).getD (st.i + 1 - 1) 0 < 1 / 1000 then some ExitReason.belowLimit
      else if st.i + 1 = ctx.maxIter then some ExitReason.maxIterReached
      else none) := rfl

/-- C5.  After each iteration `i` with `i > 3`, if the change-fraction
entry four slots back minus the current entry is negative, the loop stops
right there with reason "stabilized" and reports the average of the last
four entries of the tracking list. -/
theorem C5_stabilization {α : Type} (ctx : LoopCtx α) (st : LoopState α) (f : Nat)
    (h3 : 3 < st.i + 1)
    (hneg : (cpAfter ctx st).getD (st.i + 1 - 4) 0 - (cpAfter ctx st).getD (st.i + 1 - 1) 0 < 0) :
    runLoop ctx (f + 1) st =
      ((stepIter ctx st).1, some (ExitReason.stabilized
        (((cpAfter ctx st).getD (st.i + 1 - 4) 0 + (cpAfter ctx st).getD (st.i + 1 - 3) 0 +
          (cpAfter ctx st).getD (st.i + 1 - 2) 0 +
          (cpAfter ctx st).getD (st.i + 1 - 1) 0) / 4))) := by
  have hsnd : (stepIter ctx st).2 = some (ExitReason.stabilized
      (((cpAfter ctx st).getD (st.i + 1 - 4) 0 + (cpAfter ctx st).getD (st.i + 1 - 3) 0 +
        (cpAfter ctx st).getD (st.i + 1 - 2) 0 +
        (cpAfter ctx st).getD (st.i + 1 - 1) 0) / 4)) := by
    rw [stepIter_snd_eq, if_pos ⟨h3, hneg⟩]
  cases hs : stepIter ctx st with
  | mk st2 r =>
    rw [hs] at hsnd
    simp only at hsnd
    rw [hsnd]
    simp only [runLoop, hs, hsnd]

/-- Concrete loop state exercising the stabilization exit: iteration 5,
tracking list `[100, 0, 0, 0]`, and a step in which one of two points
changes assignment, producing a new fraction `1 > 0`. -/
def st5w : LoopState ℚ :=
  ⟨[⟨1, 5, 1⟩, ⟨2, 6, 2⟩], [⟨1, 0⟩, ⟨2, 6⟩], [100, 0, 0, 0], [], 4⟩

def ctx5w : LoopCtx ℚ := ⟨absd, qmean, 2, 1, 20⟩

theorem C5_stabilization_witness :
    3 < st5w.i + 1 ∧
    (cpAfter ctx5w st5w).getD (st5w.i + 1 - 4) 0 - (cpAfter ctx5w st5w).getD (st5w.i + 1 - 1) 0 < 0 ∧
    runLoop ctx5w 1 st5w =
      ((stepIter ctx5w st5w).1, some (ExitReason.stabilized
        (((cpAfter ctx5w st5w).getD (st5w.i + 1 - 4) 0 + (cpAfter ctx5w st5w).getD (st5w.i + 1 - 3) 0 +
          (cpAfter ctx5w st5w).getD (st5w.i + 1 - 2) 0 +
          (cpAfter ctx5w st5w).getD (st5w.i + 1 - 1) 0) / 4))) := by
  have hcp : cpAfter ctx5w st5w = [100, 0, 0, 0, 1] := by
    simp only [cpAfter, stepIter, ctx5w, st5w, centroidArray, assignTbl, closestID, withIds,
      chgFrac, innerChangeSum, cidCount, absd, List.range_succ, List.range_zero]
    norm_num [List.dedup, List.filter, List.countP, List.countP.go]
  have h3 : 3 < st5w.i + 1 := by norm_num [st5w]
  have hneg : (cpAfter ctx5w st5w).getD (st5w.i + 1 - 4) 0 -
      (cpAfter ctx5w st5w).getD (st5w.i + 1 - 1) 0 < 0 := by
    rw [hcp]; norm_num [st5w]
  exact ⟨h3, hneg, C5_stabilization ctx5w st5w 0 h3 hneg⟩

/-- At iteration 1 no exit condition can fire when
`max_iterations ≥ 2`: the tracking list still holds only the sentinel
`100.0`. -/
theorem stepIter_first_no_exit {α : Type} (ctx : LoopCtx α) (st : LoopState α)
    (h0 : st.i = 0) (hcp : st.changePct = [100]) (hmax : 2 ≤ ctx.maxIter) :
    (stepIter ctx st).2 = none := by
  rw [stepIter_snd_eq]
  have hcpa : cpAfter ctx st = [100] := by
    simp only [cpAfter, stepIter, h0, hcp]
    norm_num
  rw [hcpa, h0]
  norm_num
  omega

/-- C10.  With `max_iterations ≥ 2` the loop always executes at least
two iterations: the tracking list starts as the sentinel `[100.0]`, so at
iteration 1 the stabilization test (needs `i > 3`), the threshold test
(`100 < 0.001` is false) and the max-iteration test (`1 = max_iterations`
is false) all fail, and any run with fuel at least 2 reaches
iteration 2. -/
theorem C10_at_least_two_iterations {α : Type} (ctx : LoopCtx α) (working : List (Pt α))
    (seeds : List (Cent α)) (hmax : 2 ≤ ctx.maxIter) :
    (initState working seeds).changePct = [100] ∧
    (stepIter ctx (initState working seeds)).2 = none ∧
    ∀ f, 2 ≤ f → 2 ≤ (runLoop ctx f (initState working seeds)).1.i := by
  refine ⟨rfl, stepIter_first_no_exit ctx _ rfl rfl hmax, ?_⟩
  intro f hf
  obtain ⟨f2, rfl⟩ : ∃ f2, f = f2 + 1 := ⟨f - 1, by omega⟩
  cases hs : stepIter ctx (initState working seeds) with
  | mk st2 r =>
    have hr : r = none := by
      have h0 := stepIter_first_no_exit ctx (initState working seeds) rfl rfl hmax
      rw [hs] at h0
      exact h0
    subst hr
    simp only [runLoop, hs]
    have hi : st2.i = 1 := by
      have h0 : (stepIter ctx (initState working seeds)).1.i = 1 := rfl
      rw [hs] at h0
      exact h0
    have := runLoop_i_advances ctx f2 st2 (by omega)
    omega

theorem C10_at_least_two_iterations_witness :
    (initState [Pt.mk 1 (0 : ℚ)] [Cent.mk 1 (0 : ℚ)]).changePct = [100] ∧
    (stepIter (LoopCtx.mk absd qmean 1 1 20) (initState [Pt.mk 1 (0 : ℚ)] [Cent.mk 1 (0 : ℚ)])).2
      = none ∧
    ∀ f, 2 ≤ f →
      2 ≤ (runLoop (LoopCtx.mk absd qmean 1 1 20) f
        (initState [Pt.mk 1 (0 : ℚ)] [Cent.mk 1 (0 : ℚ)])).1.i :=
  C10_at_least_two_iterations (LoopCtx.mk absd qmean 1 1 20) [Pt.mk 1 (0 : ℚ)]
    [Cent.mk 1 (0 : ℚ)] (by norm_num)

/-- C8.  Parameter validation is fail-fast: whenever `k ≤ 0`, or the
input table is empty, or `k` is at least the population size, the run
raises one of the validation errors and the phase list stays empty, so in
particular `__kmeans_init` (seeding, including output-table creation) is
never reached. -/
theorem C8_fail_fast (k : Int) (meta : TableMeta) (pcount : Nat) (goodness : Int)
    (outOk : Bool) (hbad : k ≤ 0 ∨ pcount = 0 ∨ (pcount : Int) ≤ k) :
    (∃ e, kmeansGate k meta pcount goodness outOk = ([], some e)) ∧
    Phase.seeded ∉ (kmeansGate k meta pcount goodness outOk).1 ∧
    ((kmeansGate k meta pcount goodness outOk).2).isSome = true := by
  have hsome : (validateParams k meta pcount goodness outOk).isSome = true := by
    unfold validateParams
    split_ifs with h1 h2 h3 h4 h5 h6 h7 <;> simp_all
    omega
  cases hv : validateParams k meta pcount goodness outOk with
  | none => rw [hv] at hsome; simp at hsome
  | some e =>
    refine ⟨⟨e, ?_⟩, ?_, ?_⟩ <;> simp [kmeansGate, hv]

theorem C8_fail_fast_witness :
    (∃ e, kmeansGate 5 (TableMeta.mk true true true true) 3 1 true = ([], some e)) ∧
    Phase.seeded ∉ (kmeansGate 5 (TableMeta.mk true true true true) 3 1 true).1 ∧
    ((kmeansGate 5 (TableMeta.mk true true true true) 3 1 true).2).isSome = true :=
  C8_fail_fast 5 (TableMeta.mk true true true true) 3 1 true (by norm_num)

/-! ### The Update step: behaviour on empty centroids (C1) -/

/-- C1 (amended).  The Update step rebuilds the centroid table from
scratch: the new table has a row for a centroid id exactly when at least
one point of the current assignment carries that id — a centroid with
zero assigned points is dropped, not retained — and every surviving row
sits at the mean position of its assigned points. -/
theorem C1_amended_update {α : Type} (meanPos : List α → α) (t : List (Asg α)) (c : Nat) :
    ((∃ r ∈ refreshCents meanPos t, r.cid = c) ↔ ∃ p ∈ t, p.cid = c) ∧
    ∀ r ∈ refreshCents meanPos t,
      r.pos = meanPos ((t.filter (fun q => q.cid = r.cid)).map Asg.pos) := by
  constructor
  · constructor
    · rintro ⟨r, hr, rfl⟩
      simp only [refreshCents, List.mem_map, List.mem_dedup] at hr
      obtain ⟨c2, hc2, rfl⟩ := hr
      simpa using hc2
    · rintro ⟨p, hp, rfl⟩
      refine ⟨⟨p.cid, meanPos ((t.filter (fun q => q.cid = p.cid)).map Asg.pos)⟩, ?_, rfl⟩
      simp only [refreshCents, List.mem_map, List.mem_dedup]
      exact ⟨p.cid, by simpa using ⟨p, hp, rfl⟩, rfl⟩
  · intro r hr
    simp only [refreshCents, List.mem_map] at hr
    obtain ⟨c2, hc2, rfl⟩ := hr
    rfl

theorem C1_amended_update_witness :
    ((∃ r ∈ refreshCents qmean [Asg.mk 1 (0 : ℚ) 1], r.cid = 1) ↔
      ∃ p ∈ [Asg.mk 1 (0 : ℚ) 1], p.cid = 1) ∧
    ∀ r ∈ refreshCents qmean [Asg.mk 1 (0 : ℚ) 1],
      r.pos = qmean (([Asg.mk 1 (0 : ℚ) 1].filter (fun q => q.cid = r.cid)).map Asg.pos) :=
  C1_amended_update qmean [Asg.mk 1 (0 : ℚ) 1] 1

/-! ### Change-fraction range (C7) -/

/-- C7 (amended).  Every change fraction the loop records is
non-negative (it is a sum of absolute values divided by a non-negative
count); the upper bound 1 claimed by the spec does not hold (see the
counterexample), so non-negativity is all that survives. -/
theorem C7_amended_nonneg {α : Type} (ctx : LoopCtx α) (st : LoopState α) :
    (∀ (tNew tOld : List (Asg α)) (p : Nat), 0 ≤ chgFrac tNew tOld p) ∧
    ∀ q ∈ (stepIter ctx st).1.changePct, q ∈ st.changePct ∨ 0 ≤ q := by
  have hnn : ∀ (tNew tOld : List (Asg α)) (p : Nat), 0 ≤ chgFrac tNew tOld p := by
    intro tNew tOld p
    unfold chgFrac innerChangeSum
    apply div_nonneg _ (by positivity)
    apply List.sum_nonneg
    intro x hx
    simp only [List.mem_map] at hx
    obtain ⟨c, _, rfl⟩ := hx
    positivity
  refine ⟨hnn, ?_⟩
  intro q hq
  have hcp : (stepIter ctx st).1.changePct =
      (if 1 < st.i + 1 then
        st.changePct ++ [chgFrac (assignTbl ctx.d (centroidArray ctx.k st.cents) st.tbl)
          st.tbl ctx.pcount]
      else st.changePct) := rfl
  rw [hcp] at hq
  by_cases h1 : 1 < st.i + 1
  · rw [if_pos h1] at hq
    rcases List.mem_append.mp hq with h | h
    · exact Or.inl h
    · simp only [List.mem_singleton] at h
      subst h
      exact Or.inr (hnn _ _ _)
  · rw [if_neg h1] at hq
    exact Or.inl hq

theorem C7_amended_nonneg_witness :
    (∀ (tNew tOld : List (Asg ℚ)) (p : Nat), 0 ≤ chgFrac tNew tOld p) ∧
    ∀ q ∈ (stepIter ctx5w st5w).1.changePct, q ∈ st5w.changePct ∨ 0 ≤ q :=
  C7_amended_nonneg ctx5w st5w

/-! ### Expansion (C4) -/

/-- C4 (amended).  The expansion query reuses the `ArrayOfCentroids`
temp table left over from the last loop iteration — the centroid
positions as they stood *before* that iteration's Update — and applies
the same `_kmeans_closestID` rule as the Assign step.  Consequently
(third conjunct) re-running expansion on exactly the sampled points
reproduces the final assignment table row for row; but the array is not
the post-update final centroid table, so assignments need not agree with
a fresh nearest-centroid computation against the final centroids (see
the counterexample). -/
theorem C4_amended_expansion {α : Type} (ctx : LoopCtx α) (st : LoopState α)
    (pop : List (Pt α)) :
    (∀ r ∈ (stepIter ctx st).1.tbl,
      r.cid = closestID ctx.d ((stepIter ctx st).1.arr) r.pos) ∧
    expandAssign ctx.d pop ((stepIter ctx st).1.arr) =
      pop.map (fun p => ⟨p.pid, p.pos, closestID ctx.d ((stepIter ctx st).1.arr) p.pos⟩) ∧
    expandAssign ctx.d ((stepIter ctx st).1.tbl.map (fun r => ⟨r.pid, r.pos⟩))
        ((stepIter ctx st).1.arr) =
      (stepIter ctx st).1.tbl := by
  have htbl : (stepIter ctx st).1.tbl =
      assignTbl ctx.d (centroidArray ctx.k st.cents) st.tbl := rfl
  have harr : (stepIter ctx st).1.arr = centroidArray ctx.k st.cents := rfl
  refine ⟨?_, rfl, ?_⟩
  · intro r hr
    rw [htbl] at hr
    simp only [assignTbl, List.mem_map] at hr
    obtain ⟨q, _, rfl⟩ := hr
    rw [harr]
  · rw [htbl, harr]
    simp [expandAssign, assignTbl, List.map_map]

theorem C4_amended_expansion_witness :
    (∀ r ∈ (stepIter ctx5w st5w).1.tbl,
      r.cid = closestID ctx5w.d ((stepIter ctx5w st5w).1.arr) r.pos) ∧
    expandAssign ctx5w.d [Pt.mk 9 (7 : ℚ)] ((stepIter ctx5w st5w).1.arr) =
      [Pt.mk 9 (7 : ℚ)].map
        (fun p => ⟨p.pid, p.pos, closestID ctx5w.d ((stepIter ctx5w st5w).1.arr) p.pos⟩) ∧
    expandAssign ctx5w.d ((stepIter ctx5w st5w).1.tbl.map (fun r => ⟨r.pid, r.pos⟩))
        ((stepIter ctx5w st5w).1.arr) =
      (stepIter ctx5w st5w).1.tbl :=
  C4_amended_expansion ctx5w st5w [Pt.mk 9 (7 : ℚ)]

/-! ### Seeding (C3) -/

/-- C3 (amended).  Whatever the random draws, `__kmeans_init` produces a
centroid table of exactly `k` rows with ids exactly `1..k` — also when
the population has fewer than `k` distinct positions: in that case the
surplus centroids repeat positions, and nothing signals a shortfall (the
`c_count != k` branch of `kmeans_run` is unreachable). -/
theorem C3_amended_seed_count {α : Type} (d : α → α → ℚ) (pop : List (Pt α))
    (numC k : Nat) (cs : List (Cent α)) (hs : Seeded d pop numC k cs) :
    cs.length = k ∧ cs.map Cent.cid = List.range' 1 k := by
  induction hs with
  | first p hp => simp
  | step k2 cs pool w j hcs hsub hlen hj hw hmax ih =>
    refine ⟨by simp [ih.1], ?_⟩
    rw [List.map_append, ih.2, List.range'_concat]
    simp
    omega

/-- A three-row population carrying a single distinct position. -/
def pop3c : List (Pt ℚ) := [⟨1, 0⟩, ⟨2, 0⟩, ⟨3, 0⟩]

theorem seeded_pop3c : Seeded absd pop3c 15 2 [⟨1, 0⟩, ⟨2, 0⟩] := by
  have h1 : Seeded absd pop3c 15 1 [⟨1, 0⟩] := by
    have := @Seeded.first ℚ absd pop3c 15 ⟨1, 0⟩ (by simp [pop3c])
    simpa using this
  have h2 := @Seeded.step ℚ absd pop3c 15 1 [⟨1, 0⟩] pop3c
    (fun _ => 0) 0 h1 (List.Subperm.refl _) (by simp [pop3c]) (by simp [pop3c])
    (fun i _ => by norm_num)
    (fun i hi => by simp)
  simpa [pop3c] using h2

/-- C3 counterexample.  The population `pop3c` has three points but a
single distinct position, yet seeding can produce the full two-centroid
table `[⟨1,0⟩, ⟨2,0⟩]` (every candidate's weighted distance is 0 and
`ORDER BY … DESC LIMIT 1` still returns a row): the run neither yields
the maximum achievable distinct count (1) nor reports any shortfall. -/
theorem C3_counterexample :
    Seeded absd pop3c 15 2 [⟨1, 0⟩, ⟨2, 0⟩] ∧
    (pop3c.map Pt.pos).dedup.length = 1 ∧
    ([(⟨1, 0⟩ : Cent ℚ), ⟨2, 0⟩].length = 2) ∧ (2 : Nat) ≠ 1 := by
  refine ⟨seeded_pop3c, ?_, rfl, by norm_num⟩
  simp [pop3c, List.dedup, List.pwFilter]

theorem C3_amended_seed_count_witness :
    ([(⟨1, 0⟩ : Cent ℚ), ⟨2, 0⟩].length = 2) ∧
    ([(⟨1, 0⟩ : Cent ℚ), ⟨2, 0⟩].map Cent.cid = List.range' 1 2) :=
  C3_amended_seed_count absd pop3c 15 2 [⟨1, 0⟩, ⟨2, 0⟩] seeded_pop3c

/-! ### Change-fraction bookkeeping (C2) -/

theorem innerChangeSum_eq_finset {α : Type} (tNew tOld : List (Asg α)) :
    innerChangeSum tNew tOld =
      ∑ c ∈ (tNew.map Asg.cid).toFinset ∩ (tOld.map Asg.cid).toFinset,
        |(cidCount tNew c : ℚ) - (cidCount tOld c : ℚ)| := by
  unfold innerChangeSum
  have hnd : (((tNew.map Asg.cid).dedup).filter
      (fun c => c ∈ tOld.map Asg.cid)).Nodup :=
    (List.nodup_dedup _).filter _
  rw [← List.sum_toFinset _ hnd]
  apply Finset.sum_congr _ (fun _ _ => rfl)
  ext c
  simp [List.mem_filter, List.mem_dedup]

/-- C2 (amended).  From iteration 2 on, the loop appends to the tracking
list the value `sum(|count_new(c) - count_old(c)|) / p_count`, where the
sum ranges over the centroid ids present in *both* the new and the old
assignment tables (the SQL inner join) and `p_count` is the size of the
*full* input table — not the size of the working set — also when
refinement runs on a sample.  Iteration 1 appends nothing. -/
theorem C2_amended_change_fraction {α : Type} (ctx : LoopCtx α) (st : LoopState α) :
    (1 ≤ st.i →
      (stepIter ctx st).1.changePct = st.changePct ++
        [(∑ c ∈ ((assignTbl ctx.d (centroidArray ctx.k st.cents) st.tbl).map Asg.cid).toFinset ∩
              (st.tbl.map Asg.cid).toFinset,
            |(cidCount (assignTbl ctx.d (centroidArray ctx.k st.cents) st.tbl) c : ℚ) -
              (cidCount st.tbl c : ℚ)|) / (ctx.pcount : ℚ)]) ∧
    (st.i = 0 → (stepIter ctx st).1.changePct = st.changePct) := by
  have hcp : (stepIter ctx st).1.changePct =
      (if 1 < st.i + 1 then
        st.changePct ++ [chgFrac (assignTbl ctx.d (centroidArray ctx.k st.cents) st.tbl)
          st.tbl ctx.pcount]
      else st.changePct) := rfl
  constructor
  · intro h1
    rw [hcp, if_pos (by omega)]
    rw [chgFrac, innerChangeSum_eq_finset]
  · intro h0
    rw [hcp, if_neg (by omega)]

theorem C2_amended_change_fraction_witness :
    (stepIter ctx5w st5w).1.changePct = st5w.changePct ++
      [(∑ c ∈ ((assignTbl ctx5w.d (centroidArray ctx5w.k st5w.cents) st5w.tbl).map
            Asg.cid).toFinset ∩ ((st5w.tbl.map Asg.cid).toFinset),
          |(cidCount (assignTbl ctx5w.d (centroidArray ctx5w.k st5w.cents) st5w.tbl) c : ℚ) -
            (cidCount st5w.tbl c : ℚ)|) / (ctx5w.pcount : ℚ)] :=
  (C2_amended_change_fraction ctx5w st5w).1 (by norm_num [st5w])

/-! ### Goodness of fit (C9) -/

theorem find?_eq_head_filter {α : Type} (p : α → Bool) (l : List α) :
    l.find? p = (l.filter p).head? := by
  induction l with
  | nil => rfl
  | cons a t ih =>
    by_cases h : p a
    · rw [List.find?_cons_of_pos _ h, List.filter_cons, if_pos h, List.head?_cons]
    · rw [List.find?_cons_of_neg _ h, List.filter_cons, if_neg h, ih]

theorem qsum_eq_zero_iff (l : List ℚ) (h : ∀ x ∈ l, 0 ≤ x) :
    l.sum = 0 ↔ ∀ x ∈ l, x = 0 := by
  induction l with
  | nil => simp
  | cons a t ih =>
    have ha := h a (by simp)
    have ht : ∀ x ∈ t, 0 ≤ x := fun x hx => h x (by simp [hx])
    rw [List.sum_cons, add_eq_zero_iff_of_nonneg ha (List.sum_nonneg ht), ih ht]
    simp

theorem gofTerms_of_unique {α : Type} (d : α → α → ℚ) (pts : List (Asg α))
    (cents : List (Cent α))
    (h : ∀ p ∈ pts, (cents.filter (fun c => c.cid = p.cid)).length = 1) :
    gofTerms d pts cents = pts.map (fun p =>
      ((cents.find? (fun c => c.cid = p.cid)).map (fun c => d p.pos c.pos)).getD 0) := by
  induction pts with
  | nil => rfl
  | cons p ps ih =>
    have h1 := h p (by simp)
    obtain ⟨c0, hc0⟩ : ∃ c0, cents.filter (fun c => c.cid = p.cid) = [c0] := by
      cases hf : cents.filter (fun c => c.cid = p.cid) with
      | nil => rw [hf] at h1; simp at h1
      | cons a l =>
        rw [hf] at h1
        have hl : l = [] := by
          simp only [List.length_cons] at h1
          exact List.length_eq_zero.mp (by omega)
        exact ⟨a, by rw [hl]⟩
    have hps := ih (fun q hq => h q (by simp [hq]))
    simp only [gofTerms, List.map_cons, List.flatten_cons] at hps ⊢
    rw [hc0, hps, find?_eq_head_filter, hc0]
    rfl

theorem mem_gofTerms_iff {α : Type} (d : α → α → ℚ) (pts : List (Asg α))
    (cents : List (Cent α)) (x : ℚ) :
    x ∈ gofTerms d pts cents ↔
      ∃ p ∈ pts, ∃ c ∈ cents, c.cid = p.cid ∧ x = d p.pos c.pos := by
  simp only [gofTerms, List.mem_flatten, List.mem_map]
  constructor
  · rintro ⟨l, ⟨p, hp, rfl⟩, hx⟩
    simp only [List.mem_map, List.mem_filter] at hx
    obtain ⟨c, ⟨hc, hcid⟩, rfl⟩ := hx
    exact ⟨p, hp, c, hc, by simpa using hcid, rfl⟩
  · rintro ⟨p, hp, c, hc, hcid, rfl⟩
    refine ⟨_, ⟨p, hp, rfl⟩, ?_⟩
    simp only [List.mem_map, List.mem_filter]
    exact ⟨c, ⟨hc, by simpa using hcid⟩, rfl⟩

/-- C9.  When the goodness flag is 1 the run reports
`sum(l2norm(p.position - c.position)) / count(*)` over the join of the
output points with the centroid table on cid.  Provided every output
point's cid matches exactly one centroid row (the spec's own assignment
invariant) and there is at least one point, this equals the sum over all
output points of the distance to their assigned centroid divided by the
number of points; it is non-negative; it is zero exactly when every
point coincides with its assigned centroid's position; and with the flag
0 the computation is skipped. -/
theorem C9_goodness_of_fit {α : Type} (d : α → α → ℚ) (pts : List (Asg α))
    (cents : List (Cent α))
    (hd0 : ∀ a b, 0 ≤ d a b) (hdz : ∀ a b, d a b = 0 ↔ a = b)
    (huniq : ∀ p ∈ pts, (cents.filter (fun c => c.cid = p.cid)).length = 1)
    (hne : pts ≠ []) :
    gfitOf d 1 pts cents = some (gofScore d pts cents) ∧
    gfitOf d 0 pts cents = none ∧
    gofScore d pts cents =
      (pts.map (fun p => ((cents.find? (fun c => c.cid = p.cid)).map
        (fun c => d p.pos c.pos)).getD 0)).sum / (pts.length : ℚ) ∧
    0 ≤ gofScore d pts cents ∧
    (gofScore d pts cents = 0 ↔
      ∀ p ∈ pts, ∀ c ∈ cents, c.cid = p.cid → p.pos = c.pos) := by
  have hterms : ∀ x ∈ gofTerms d pts cents, 0 ≤ x := by
    intro x hx
    obtain ⟨p, _, c, _, _, rfl⟩ := (mem_gofTerms_iff d pts cents x).mp hx
    exact hd0 _ _
  have hlen : (gofTerms d pts cents).length = pts.length := by
    rw [gofTerms_of_unique d pts cents huniq, List.length_map]
  have hlenpos : 0 < pts.length := List.length_pos.mpr hne
  refine ⟨rfl, rfl, ?_, ?_, ?_⟩
  · rw [gofScore, gofTerms_of_unique d pts cents huniq, List.length_map]
  · exact div_nonneg (List.sum_nonneg hterms) (by positivity)
  · rw [gofScore, div_eq_zero_iff]
    have hlz : ¬ ((gofTerms d pts cents).length : ℚ) = 0 := by
      rw [hlen]
      positivity
    rw [or_iff_left hlz, qsum_eq_zero_iff _ hterms]
    constructor
    · intro hz p hp c hc hcid
      have hx : d p.pos c.pos ∈ gofTerms d pts cents :=
        (mem_gofTerms_iff d pts cents _).mpr ⟨p, hp, c, hc, hcid, rfl⟩
      exact (hdz _ _).mp (hz _ hx)
    · intro hcoin x hx
      obtain ⟨p, hp, c, hc, hcid, rfl⟩ := (mem_gofTerms_iff d pts cents x).mp hx
      exact (hdz _ _).mpr (hcoin p hp c hc hcid)

theorem C9_goodness_of_fit_witness :
    gfitOf absd 1 [Asg.mk 1 (0 : ℚ) 1] [Cent.mk 1 (0 : ℚ)] =
      some (gofScore absd [Asg.mk 1 (0 : ℚ) 1] [Cent.mk 1 (0 : ℚ)]) ∧
    gfitOf absd 0 [Asg.mk 1 (0 : ℚ) 1] [Cent.mk 1 (0 : ℚ)] = none ∧
    gofScore absd [Asg.mk 1 (0 : ℚ) 1] [Cent.mk 1 (0 : ℚ)] =
      ([Asg.mk 1 (0 : ℚ) 1].map (fun p =>
        (([Cent.mk 1 (0 : ℚ)].find? (fun c => c.cid = p.cid)).map
          (fun c => absd p.pos c.pos)).getD 0)).sum / (([Asg.mk 1 (0 : ℚ) 1].length : ℚ)) ∧
    0 ≤ gofScore absd [Asg.mk 1 (0 : ℚ) 1] [Cent.mk 1 (0 : ℚ)] ∧
    (gofScore absd [Asg.mk 1 (0 : ℚ) 1] [Cent.mk 1 (0 : ℚ)] = 0 ↔
      ∀ p ∈ [Asg.mk 1 (0 : ℚ) 1], ∀ c ∈ [Cent.mk 1 (0 : ℚ)],
        c.cid = p.cid → p.pos = c.pos) :=
  C9_goodness_of_fit absd [Asg.mk 1 (0 : ℚ) 1] [Cent.mk 1 (0 : ℚ)]
    (fun a b => abs_nonneg _)
    (fun a b => by rw [absd, abs_eq_zero, sub_eq_zero])
    (by intro p hp; simp at hp; subst hp; rfl)
    (by simp)

/-! ### Counterexample for C1: an empty centroid is dropped, not retained -/

def ctx1c : LoopCtx ℚ := ⟨absd, qmean, 2, 3, 20⟩

/-- C1 counterexample.  Take the three-point population `pop3c` (all
points at position 0) and the reachable seeding `[⟨1,0⟩, ⟨2,0⟩]`
(`seeded_pop3c`).  In iteration 1 every point ties and is assigned to
centroid 1, so centroid 2 has zero assigned points; after the Update
step the centroid table is `[⟨1, 0⟩]`: it contains *no* entry for
centroid 2, contradicting the claim that a centroid with zero assigned
points retains its previous position in the centroid set. -/
theorem C1_counterexample :
    Seeded absd pop3c 15 2 [⟨1, 0⟩, ⟨2, 0⟩] ∧
    cidCount (stepIter ctx1c (initState pop3c [⟨1, 0⟩, ⟨2, 0⟩])).1.tbl 2 = 0 ∧
    (stepIter ctx1c (initState pop3c [⟨1, 0⟩, ⟨2, 0⟩])).1.cents = [⟨1, 0⟩] ∧
    ¬ ∃ r ∈ (stepIter ctx1c (initState pop3c [⟨1, 0⟩, ⟨2, 0⟩])).1.cents, r.cid = 2 := by
  have hstep : stepIter ctx1c (initState pop3c [⟨1, 0⟩, ⟨2, 0⟩]) =
      (⟨[⟨1, 0, 1⟩, ⟨2, 0, 1⟩, ⟨3, 0, 1⟩], [⟨1, 0⟩], [100], [some 0, some 0], 1⟩, none) := by
    norm_num [stepIter, initState, tempTable0, pop3c, ctx1c, centroidArray, assignTbl,
      closestID, withIds, refreshCents, chgFrac, innerChangeSum, cidCount, qmean, absd, abs,
      List.range_succ, List.dedup, List.pwFilter, List.filter, List.countP, List.countP.go,
      List.getD]
  refine ⟨seeded_pop3c, ?_, ?_, ?_⟩
  · rw [hstep]
    norm_num [cidCount, List.countP, List.countP.go]
  · rw [hstep]
  · rw [hstep]
    norm_num

/-! ### Counterexample for C7: a change fraction above 1 -/

def pop7c : List (Pt ℚ) :=
  [⟨1, 0⟩, ⟨2, 0⟩, ⟨3, 0⟩, ⟨4, 0⟩, ⟨5, 0⟩, ⟨6, 0⟩, ⟨7, 80⟩, ⟨8, -10⟩]

def seeds7c : List (Cent ℚ) := [⟨1, 0⟩, ⟨2, -10⟩]

def ctx7c : LoopCtx ℚ := ⟨absd, qmean, 2, 8, 20⟩

theorem seeded_pop7c : Seeded absd pop7c 15 2 seeds7c := by
  have h1 : Seeded absd pop7c 15 1 [⟨1, 0⟩] := by
    have h := @Seeded.first ℚ absd pop7c 15 ⟨1, 0⟩ (by simp [pop7c])
    simpa using h
  have h2 := @Seeded.step ℚ absd pop7c 15 1 [⟨1, 0⟩] pop7c
    (fun i => if i = 7 then (1 : ℚ)/2 else 0) 7 h1 (List.Subperm.refl _)
    (by simp [pop7c]) (by simp [pop7c])
    (fun i _ => by dsimp only; split_ifs <;> norm_num)
    (fun i hi => by
      have hi8 : i < 8 := by simpa [pop7c] using hi
      interval_cases i <;> norm_num [pop7c, minDistTo, absd, abs, List.get])
  simpa [pop7c, seeds7c] using h2

theorem step1_pop7 :
    stepIter ctx7c (initState pop7c seeds7c) =
      (⟨[⟨1, 0, 1⟩, ⟨2, 0, 1⟩, ⟨3, 0, 1⟩, ⟨4, 0, 1⟩, ⟨5, 0, 1⟩, ⟨6, 0, 1⟩,
          ⟨7, 80, 1⟩, ⟨8, -10, 2⟩],
        [⟨1, 80/7⟩, ⟨2, -10⟩], [100], [some 0, some (-10)], 1⟩, none) := by
  norm_num [stepIter, initState, tempTable0, pop7c, seeds7c, ctx7c, centroidArray, assignTbl,
    closestID, withIds, refreshCents, chgFrac, innerChangeSum, cidCount, qmean, absd, abs,
    List.range_succ, List.dedup, List.pwFilter, List.filter, List.countP, List.countP.go,
    List.getD]

/-- C7 counterexample.  On the eight-point population `pop7c` with the
reachable seeding `seeds7c` the full data set is the working set
(`p_count = 8`), and iteration 2 records the change fraction
`(|1-7| + |7-1|) / 8 = 3/2`, which lies outside `[0, 1]`. -/
theorem C7_counterexample :
    Seeded absd pop7c 15 2 seeds7c ∧
    (stepIter ctx7c (initState pop7c seeds7c)).2 = none ∧
    (stepIter ctx7c (stepIter ctx7c (initState pop7c seeds7c)).1).1.changePct = [100, 3/2] ∧
    ¬ ((3/2 : ℚ) ≤ 1) := by
  refine ⟨seeded_pop7c, ?_, ?_, by norm_num⟩
  · rw [step1_pop7]
  · rw [step1_pop7]
    norm_num [stepIter, centroidArray, assignTbl, closestID, withIds, chgFrac,
      innerChangeSum, cidCount, ctx7c, absd, abs, List.range_succ, List.dedup,
      List.pwFilter, List.filter, List.countP, List.countP.go]

/-! ### Blocks of identically-positioned rows

The sampled-run counterexamples need working sets of 1500 rows.  We
build them from blocks of consecutive pids sharing one position and
prove the step computations block-wise. -/

/-- `rowsP s n x`: the input rows `(s, x), (s+1, x), …, (s+n-1, x)`. -/
def rowsP : Nat → Nat → ℚ → List (Pt ℚ)
  | _, 0, _ => []
  | s, n + 1, x => ⟨s, x⟩ :: rowsP (s + 1) n x

/-- `asgBlock s n x c`: assignment rows of `rowsP s n x`, all carrying
cid `c`. -/
def asgBlock : Nat → Nat → ℚ → Nat → List (Asg ℚ)
  | _, 0, _, _ => []
  | s, n + 1, x, c => ⟨s, x, c⟩ :: asgBlock (s + 1) n x c

theorem rowsP_length (x : ℚ) : ∀ s n, (rowsP s n x).length = n := by
  intro s n
  induction n generalizing s with
  | zero => rfl
  | succ n ih => simp [rowsP, ih]

theorem rowsP_pos (x : ℚ) : ∀ s n, ∀ q ∈ rowsP s n x, q.pos = x := by
  intro s n
  induction n generalizing s with
  | zero => simp [rowsP]
  | succ n ih =>
    intro q hq
    rcases List.mem_cons.mp hq with h | h
    · rw [h]
    · exact ih (s + 1) q h

theorem rowsP_sublist (x : ℚ) : ∀ s n m, n ≤ m → (rowsP s n x).Sublist (rowsP s m x) := by
  intro s n
  induction n generalizing s with
  | zero => intro m _; exact List.nil_sublist _
  | succ n ih =>
    intro m hm
    obtain ⟨m2, rfl⟩ : ∃ m2, m = m2 + 1 := ⟨m - 1, by omega⟩
    exact List.Sublist.cons₂ _ (ih (s + 1) m2 (by omega))

theorem tempTable0_rowsP (x : ℚ) : ∀ s n, tempTable0 (rowsP s n x) = asgBlock s n x 0 := by
  intro s n
  induction n generalizing s with
  | zero => rfl
  | succ n ih => simp [rowsP, tempTable0, asgBlock] at ih ⊢; exact ih (s + 1)

theorem assignTbl_asgBlock (d : ℚ → ℚ → ℚ) (arr : List (Option ℚ)) (x : ℚ) (c : Nat) :
    ∀ s n, assignTbl d arr (asgBlock s n x c) = asgBlock s n x (closestID d arr x) := by
  intro s n
  induction n generalizing s with
  | zero => rfl
  | succ n ih => simp [asgBlock, assignTbl] at ih ⊢; exact ih (s + 1)

theorem asgBlock_map_cid (x : ℚ) (c : Nat) :
    ∀ s n, (asgBlock s n x c).map Asg.cid = List.replicate n c := by
  intro s n
  induction n generalizing s with
  | zero => rfl
  | succ n ih => simp [asgBlock, List.replicate_succ] at ih ⊢; exact ih (s + 1)

theorem asgBlock_map_pos (x : ℚ) (c : Nat) :
    ∀ s n, (asgBlock s n x c).map Asg.pos = List.replicate n x := by
  intro s n
  induction n generalizing s with
  | zero => rfl
  | succ n ih => simp [asgBlock, List.replicate_succ] at ih ⊢; exact ih (s + 1)

theorem asgBlock_countP (x : ℚ) (c c2 : Nat) :
    ∀ s n, (asgBlock s n x c).countP (fun r => r.cid = c2) = if c = c2 then n else 0 := by
  intro s n
  induction n generalizing s with
  | zero => simp [asgBlock]
  | succ n ih =>
    rw [asgBlock, List.countP_cons]
    rw [ih (s + 1)]
    by_cases h : c = c2 <;> simp [h]

theorem asgBlock_filter (x : ℚ) (c c2 : Nat) :
    ∀ s n, (asgBlock s n x c).filter (fun r => r.cid = c2) =
      if c = c2 then asgBlock s n x c else [] := by
  intro s n
  induction n generalizing s with
  | zero => simp [asgBlock]
  | succ n ih =>
    rw [asgBlock, List.filter_cons]
    rw [ih (s + 1)]
    by_cases h : c = c2 <;> simp [h, asgBlock]

theorem replicate_union_of_mem {n : Nat} {a : Nat} {l : List Nat} (h : a ∈ l) :
    List.replicate n a ∪ l = l := by
  induction n with
  | zero => simp
  | succ n ih => rw [List.replicate_succ, List.cons_union, ih, List.insert_of_mem h]

theorem replicate_union_of_not_mem {n : Nat} {a : Nat} {l : List Nat} (hn : n ≠ 0)
    (h : a ∉ l) : List.replicate n a ∪ l = a :: l := by
  induction n with
  | zero => omega
  | succ n ih =>
    rw [List.replicate_succ, List.cons_union]
    cases n with
    | zero => simpa using List.insert_of_not_mem h
    | succ m =>
      rw [ih (by omega)]
      exact List.insert_of_mem (by simp)

/-! ### A sampled run (counterexamples for C2 and C4)

Population of 2501 points; for `k = 2` the source's sample size is
`100 * floor(-log(1 - 0.999^(1/2)) * 2) = 1500 < 2501`, so refinement
runs on a 1500-point sample (`ORDER BY random() LIMIT 1500` draws an
arbitrary 1500-row sub-multiset).  The sample `wkB` holds 749 points at
0, 749 points at 10, one at -6000 and one at 2; the out-of-sample rest
is 1000 points at 10 and one point `Z` at 1. -/

def wkB : List (Pt ℚ) :=
  rowsP 1 749 0 ++ (rowsP 750 749 10 ++ [⟨1499, -6000⟩, ⟨1500, 2⟩])

def extraB : List (Pt ℚ) := rowsP 1501 1000 10 ++ [⟨2501, 1⟩]

def popB : List (Pt ℚ) := wkB ++ extraB

def seedsB : List (Cent ℚ) := [⟨1, 0⟩, ⟨2, 10⟩]

def ctxB : LoopCtx ℚ := ⟨absd, qmean, 2, 2501, 20⟩

def t1B : List (Asg ℚ) :=
  asgBlock 1 749 0 1 ++ (asgBlock 750 749 10 2 ++ [⟨1499, -6000, 1⟩, ⟨1500, 2, 1⟩])

def t2B : List (Asg ℚ) :=
  asgBlock 1 749 0 1 ++ (asgBlock 750 749 10 2 ++ [⟨1499, -6000, 1⟩, ⟨1500, 2, 2⟩])

def cents1B : List (Cent ℚ) := [⟨2, 10⟩, ⟨1, -5998/751⟩]

def cents2B : List (Cent ℚ) := [⟨1, -8⟩, ⟨2, 7492/750⟩]

def arr1B : List (Option ℚ) := [some 0, some 10]

def arr2B : List (Option ℚ) := [some (-5998/751), some 10]

theorem tempTable0_append (l1 l2 : List (Pt ℚ)) :
    tempTable0 (l1 ++ l2) = tempTable0 l1 ++ tempTable0 l2 := by
  simp [tempTable0]

theorem assignTbl_append (d : ℚ → ℚ → ℚ) (arr : List (Option ℚ)) (l1 l2 : List (Asg ℚ)) :
    assignTbl d arr (l1 ++ l2) = assignTbl d arr l1 ++ assignTbl d arr l2 := by
  simp [assignTbl]

theorem closest_arr1B_a : closestID absd arr1B 0 = 1 := by
  norm_num [closestID, withIds, arr1B, absd, abs]

theorem closest_arr1B_b : closestID absd arr1B 10 = 2 := by
  norm_num [closestID, withIds, arr1B, absd, abs]

theorem closest_arr1B_c : closestID absd arr1B (-6000) = 1 := by
  norm_num [closestID, withIds, arr1B, absd, abs]

theorem closest_arr1B_d : closestID absd arr1B 2 = 1 := by
  norm_num [closestID, withIds, arr1B, absd, abs]

theorem assign1B : assignTbl absd arr1B (tempTable0 wkB) = t1B := by
  rw [wkB, tempTable0_append, tempTable0_append, tempTable0_rowsP, tempTable0_rowsP,
    assignTbl_append, assignTbl_append, assignTbl_asgBlock, assignTbl_asgBlock,
    closest_arr1B_a, closest_arr1B_b]
  have htail : assignTbl absd arr1B (tempTable0 [⟨1499, -6000⟩, ⟨1500, 2⟩]) =
      [⟨1499, -6000, 1⟩, ⟨1500, 2, 1⟩] := by
    simp [tempTable0, assignTbl, closest_arr1B_c, closest_arr1B_d]
  rw [htail, t1B]

theorem t1B_cids_dedup : (t1B.map Asg.cid).dedup = [2, 1] := by
  rw [t1B]
  simp only [List.map_append, asgBlock_map_cid, List.map_cons, List.map_nil]
  rw [List.dedup_append, List.dedup_append]
  have h11 : ([1, 1] : List Nat).dedup = [1] := by decide
  rw [h11,
    show (List.replicate 749 2 ∪ [1] : List Nat) = [2, 1] from
      replicate_union_of_not_mem (by norm_num) (by norm_num),
    show (List.replicate 749 1 ∪ [2, 1] : List Nat) = [2, 1] from
      replicate_union_of_mem (by simp)]

theorem t1B_filter_a : t1B.filter (fun r => r.cid = 2) = asgBlock 750 749 10 2 := by
  rw [t1B]
  simp only [List.filter_append, asgBlock_filter]
  norm_num [List.filter]

theorem t1B_filter_b : t1B.filter (fun r => r.cid = 1) =
    asgBlock 1 749 0 1 ++ [⟨1499, -6000, 1⟩, ⟨1500, 2, 1⟩] := by
  rw [t1B]
  simp only [List.filter_append, asgBlock_filter]
  norm_num [List.filter]

theorem qmean_c2B : qmean ((asgBlock 750 749 10 2).map Asg.pos) = 10 := by
  rw [asgBlock_map_pos, qmean, List.sum_replicate, List.length_replicate, nsmul_eq_mul]
  norm_num

theorem qmean_c1B :
    qmean ((asgBlock 1 749 0 1 ++ [(⟨1499, -6000, 1⟩ : Asg ℚ), ⟨1500, 2, 1⟩]).map Asg.pos) =
      -5998/751 := by
  simp only [List.map_append, asgBlock_map_pos, List.map_cons, List.map_nil]
  rw [qmean, List.sum_append, List.sum_replicate, List.length_append, List.length_replicate,
    nsmul_eq_mul]
  norm_num

theorem cents1B_eq : refreshCents qmean t1B = cents1B := by
  rw [refreshCents, t1B_cids_dedup]
  simp only [List.map_cons, List.map_nil]
  rw [t1B_filter_a, t1B_filter_b, qmean_c2B, qmean_c1B, cents1B]

theorem arr1B_eq : centroidArray 2 seedsB = arr1B := by
  norm_num [centroidArray, seedsB, arr1B, List.range_succ, List.find?]

theorem step1B : stepIter ctxB (initState wkB seedsB) =
    (⟨t1B, cents1B, [100], arr1B, 1⟩, none) := by
  simp only [stepIter, initState, ctxB]
  rw [arr1B_eq, assign1B, cents1B_eq]
  norm_num [List.getD]

theorem closest_arr2B_a : closestID absd arr2B 0 = 1 := by
  norm_num [closestID, withIds, arr2B, absd, abs]

theorem closest_arr2B_b : closestID absd arr2B 10 = 2 := by
  norm_num [closestID, withIds, arr2B, absd, abs]

theorem closest_arr2B_c : closestID absd arr2B (-6000) = 1 := by
  norm_num [closestID, withIds, arr2B, absd, abs]

theorem closest_arr2B_d : closestID absd arr2B 2 = 2 := by
  norm_num [closestID, withIds, arr2B, absd, abs]

theorem closest_arr2B_z : closestID absd arr2B 1 = 1 := by
  norm_num [closestID, withIds, arr2B, absd, abs]

theorem arr2B_eq : centroidArray 2 cents1B = arr2B := by
  norm_num [centroidArray, cents1B, arr2B, List.range_succ, List.find?]

theorem assign2B : assignTbl absd arr2B t1B = t2B := by
  rw [t1B, assignTbl_append, assignTbl_append, assignTbl_asgBlock, assignTbl_asgBlock,
    closest_arr2B_a, closest_arr2B_b]
  have htail : assignTbl absd arr2B [(⟨1499, -6000, 1⟩ : Asg ℚ), ⟨1500, 2, 1⟩] =
      [⟨1499, -6000, 1⟩, ⟨1500, 2, 2⟩] := by
    simp [assignTbl, closest_arr2B_c, closest_arr2B_d]
  rw [htail, t2B]

theorem t2B_cids_dedup : (t2B.map Asg.cid).dedup = [1, 2] := by
  rw [t2B]
  simp only [List.map_append, asgBlock_map_cid, List.map_cons, List.map_nil]
  rw [List.dedup_append, List.dedup_append]
  have h12 : ([1, 2] : List Nat).dedup = [1, 2] := by decide
  rw [h12,
    show (List.replicate 749 2 ∪ [1, 2] : List Nat) = [1, 2] from
      replicate_union_of_mem (by simp),
    show (List.replicate 749 1 ∪ [1, 2] : List Nat) = [1, 2] from
      replicate_union_of_mem (by simp)]

theorem t2B_filter_a : t2B.filter (fun r => r.cid = 1) =
    asgBlock 1 749 0 1 ++ [⟨1499, -6000, 1⟩] := by
  rw [t2B]
  simp only [List.filter_append, asgBlock_filter]
  norm_num [List.filter]

theorem t2B_filter_b : t2B.filter (fun r => r.cid = 2) =
    asgBlock 750 749 10 2 ++ [⟨1500, 2, 2⟩] := by
  rw [t2B]
  simp only [List.filter_append, asgBlock_filter]
  norm_num [List.filter]

theorem qmean_c1B2 :
    qmean ((asgBlock 1 749 0 1 ++ [(⟨1499, -6000, 1⟩ : Asg ℚ)]).map Asg.pos) = -8 := by
  simp only [List.map_append, asgBlock_map_pos, List.map_cons, List.map_nil]
  rw [qmean, List.sum_append, List.sum_replicate, List.length_append, List.length_replicate,
    nsmul_eq_mul]
  norm_num

theorem qmean_c2B2 :
    qmean ((asgBlock 750 749 10 2 ++ [(⟨1500, 2, 2⟩ : Asg ℚ)]).map Asg.pos) = 7492/750 := by
  simp only [List.map_append, asgBlock_map_pos, List.map_cons, List.map_nil]
  rw [qmean, List.sum_append, List.sum_replicate, List.length_append, List.length_replicate,
    nsmul_eq_mul]
  norm_num

theorem cents2B_eq : refreshCents qmean t2B = cents2B := by
  rw [refreshCents, t2B_cids_dedup]
  simp only [List.map_cons, List.map_nil]
  rw [t2B_filter_a, t2B_filter_b, qmean_c1B2, qmean_c2B2, cents2B]

theorem t1B_count_a : cidCount t1B 1 = 751 := by
  rw [cidCount, t1B]
  simp only [List.countP_append, asgBlock_countP]
  norm_num [List.countP, List.countP.go]

theorem t1B_count_b : cidCount t1B 2 = 749 := by
  rw [cidCount, t1B]
  simp only [List.countP_append, asgBlock_countP]
  norm_num [List.countP, List.countP.go]

theorem t2B_count_a : cidCount t2B 1 = 750 := by
  rw [cidCount, t2B]
  simp only [List.countP_append, asgBlock_countP]
  norm_num [List.countP, List.countP.go]

theorem t2B_count_b : cidCount t2B 2 = 750 := by
  rw [cidCount, t2B]
  simp only [List.countP_append, asgBlock_countP]
  norm_num [List.countP, List.countP.go]

theorem t1B_mem_cid_a : (1 : Nat) ∈ t1B.map Asg.cid := by
  rw [t1B]
  simp only [List.map_append, asgBlock_map_cid, List.map_cons, List.map_nil]
  exact List.mem_append_left _ (List.mem_replicate.mpr ⟨by norm_num, rfl⟩)

theorem t1B_mem_cid_b : (2 : Nat) ∈ t1B.map Asg.cid := by
  rw [t1B]
  simp only [List.map_append, asgBlock_map_cid, List.map_cons, List.map_nil]
  exact List.mem_append_right _
    (List.mem_append_left _ (List.mem_replicate.mpr ⟨by norm_num, rfl⟩))

theorem chg2B : chgFrac t2B t1B 2501 = 2/2501 := by
  rw [chgFrac]
  have hsum : innerChangeSum t2B t1B = 2 := by
    rw [innerChangeSum, t2B_cids_dedup]
    have hfil : ([1, 2].filter (fun c => c ∈ t1B.map Asg.cid)) = [1, 2] := by
      have h1 : decide ((1 : Nat) ∈ t1B.map Asg.cid) = true := decide_eq_true t1B_mem_cid_a
      have h2 : decide ((2 : Nat) ∈ t1B.map Asg.cid) = true := decide_eq_true t1B_mem_cid_b
      rw [List.filter_cons, List.filter_cons, List.filter_nil]
      simp only [h1, h2, if_true]
    rw [hfil]
    simp only [List.map_cons, List.map_nil, t1B_count_a, t1B_count_b, t2B_count_a,
      t2B_count_b]
    norm_num [abs]
  rw [hsum]
  norm_num

theorem step2B : stepIter ctxB (⟨t1B, cents1B, [100], arr1B, 1⟩ : LoopState ℚ) =
    (⟨t2B, cents2B, [100, 2/2501], arr2B, 2⟩, some ExitReason.belowLimit) := by
  simp only [stepIter, ctxB]
  rw [arr2B_eq, assign2B, cents2B_eq, chg2B]
  norm_num [List.getD]

/-- Candidate pool that seeding can draw for centroid 2: fourteen of
the points at 10 and one point at 0 (15 = `min numCentroids 2501`
distinct rows of the population). -/
def poolB : List (Pt ℚ) := rowsP 750 14 10 ++ rowsP 1 1 0

theorem poolB_subperm : poolB.Subperm popB := by
  refine ⟨rowsP 1 1 0 ++ rowsP 750 14 10, List.perm_append_comm, ?_⟩
  have h1 : (rowsP 1 1 0).Sublist (rowsP 1 749 0) := rowsP_sublist 0 1 1 749 (by norm_num)
  have h2 : (rowsP 750 14 10).Sublist
      (rowsP 750 749 10 ++ [(⟨1499, -6000⟩ : Pt ℚ), ⟨1500, 2⟩]) :=
    (rowsP_sublist 10 750 14 749 (by norm_num)).trans (List.sublist_append_left _ _)
  exact ((h1.append h2).trans (List.sublist_append_left wkB extraB))

theorem poolB_pos : ∀ q ∈ poolB, q.pos = 10 ∨ q.pos = 0 := by
  intro q hq
  rcases List.mem_append.mp hq with h | h
  · exact Or.inl (rowsP_pos 10 750 14 q h)
  · exact Or.inr (rowsP_pos 0 1 1 q h)

theorem seeded_popB : Seeded absd popB 15 2 seedsB := by
  have hmem1 : (⟨1, 0⟩ : Pt ℚ) ∈ popB := by
    have : (⟨1, 0⟩ : Pt ℚ) ∈ rowsP 1 749 0 := by
      show (⟨1, 0⟩ : Pt ℚ) ∈ ⟨1, 0⟩ :: rowsP 2 748 0
      exact List.mem_cons_self _ _
    exact List.mem_append_left _ (List.mem_append_left _ this)
  have h1 : Seeded absd popB 15 1 [⟨1, 0⟩] := by
    have h := @Seeded.first ℚ absd popB 15 ⟨1, 0⟩ hmem1
    simpa using h
  have hlen : poolB.length = min 15 popB.length := by
    have hp : poolB.length = 15 := by
      simp [poolB, List.length_append, rowsP_length]
    have hpop : popB.length = 2501 := by
      simp [popB, wkB, extraB, List.length_append, rowsP_length]
    rw [hp, hpop]
    norm_num
  have hj : 0 < poolB.length := by
    simp [poolB, List.length_append, rowsP_length]
  have hget0 : (poolB.get ⟨0, hj⟩).pos = 10 := rfl
  have hmd : ∀ x : ℚ, minDistTo absd [⟨1, 0⟩] x = |x| := by
    intro x
    simp [minDistTo, absd]
  have hmax : ∀ i (hi : i < poolB.length),
      minDistTo absd [⟨1, 0⟩] (poolB.get ⟨i, hi⟩).pos * (1/2 : ℚ) ≤
        minDistTo absd [⟨1, 0⟩] (poolB.get ⟨0, hj⟩).pos * (1/2 : ℚ) := by
    intro i hi
    have hq := poolB_pos (poolB.get ⟨i, hi⟩) (poolB.get_mem i hi)
    have h0 : (poolB.get ⟨0, hj⟩).pos = 10 := hget0
    rw [h0, hmd, hmd]
    rcases hq with h | h
    · rw [h]
    · rw [h]
      norm_num [abs]
  have h2 := @Seeded.step ℚ absd popB 15 1 [⟨1, 0⟩] poolB
    (fun _ => (1 : ℚ)/2) 0 h1 poolB_subperm hlen hj
    (fun i _ => by norm_num) hmax
  have hpos : (poolB.get ⟨0, hj⟩).pos = 10 := hget0
  rw [hpos] at h2
  simpa [seedsB] using h2

/-- The change fraction as the specification words it: the sum over all
`k` centroid ids of the absolute count difference, divided by the number
of points in the working set. -/
def specChangeFrac (kk : Nat) (tNew tOld : List (Asg ℚ)) (wsize : Nat) : ℚ :=
  (((List.range kk).map
    (fun j => |(cidCount tNew (j + 1) : ℚ) - (cidCount tOld (j + 1) : ℚ)|)).sum) / (wsize : ℚ)

theorem spec2B : specChangeFrac 2 t2B t1B 1500 = 2/1500 := by
  rw [specChangeFrac]
  norm_num [List.range_succ, t1B_count_a, t1B_count_b, t2B_count_a, t2B_count_b, abs]

/-- C2 counterexample.  On the 2501-point population `popB` with the
reachable seeding `seedsB` and the 1500-row sample `wkB`, iteration 2
records the change fraction `2 / 2501` (the code divides by `p_count`,
the full population size), whereas the claimed formula — sum of
per-centroid count differences divided by the working-set size 1500 —
gives `2 / 1500`.  The two differ. -/
theorem C2_counterexample :
    Seeded absd popB 15 2 seedsB ∧
    wkB.Subperm popB ∧ wkB.length = 1500 ∧ popB.length = 2501 ∧ ctxB.pcount = 2501 ∧
    (stepIter ctxB (initState wkB seedsB)).2 = none ∧
    (stepIter ctxB (stepIter ctxB (initState wkB seedsB)).1).1.changePct = [100, 2/2501] ∧
    specChangeFrac 2 ((stepIter ctxB (stepIter ctxB (initState wkB seedsB)).1).1.tbl)
      ((stepIter ctxB (initState wkB seedsB)).1.tbl) 1500 = 2/1500 ∧
    (2/2501 : ℚ) ≠ 2/1500 := by
  have hwk : wkB.length = 1500 := by
    simp [wkB, List.length_append, rowsP_length]
  have hpop : popB.length = 2501 := by
    simp [popB, wkB, extraB, List.length_append, rowsP_length]
  refine ⟨seeded_popB, (List.sublist_append_left wkB extraB).subperm, hwk, hpop, rfl,
    ?_, ?_, ?_, by norm_num⟩
  · rw [step1B]
  · rw [step1B]
    dsimp only
    rw [step2B]
  · rw [step1B]
    dsimp only
    rw [step2B]
    dsimp only
    exact spec2B

/-- C4 counterexample.  In the same sampled run the loop exits at
iteration 2 (reason: below threshold).  Expansion then assigns the
out-of-sample point `Z = (2501, 1)` with the leftover `ArrayOfCentroids`
(positions `-5998/751` and `10`, from *before* the final Update), giving
cid 1; but the nearest centroid of `Z` among the final centroid set
(positions `-8` and `7492/750`) is cid 2.  So expansion does not
implement nearest-centroid against the final centroids. -/
theorem C4_counterexample :
    Seeded absd popB 15 2 seedsB ∧
    wkB.Subperm popB ∧ wkB.length = 1500 ∧ popB.length = 2501 ∧
    (stepIter ctxB (stepIter ctxB (initState wkB seedsB)).1).2 =
      some ExitReason.belowLimit ∧
    Pt.mk 2501 (1 : ℚ) ∈ popB ∧
    (⟨2501, 1, 1⟩ : Asg ℚ) ∈ expandAssign absd popB
      ((stepIter ctxB (stepIter ctxB (initState wkB seedsB)).1).1.arr) ∧
    closestID absd (centroidArray 2
      ((stepIter ctxB (stepIter ctxB (initState wkB seedsB)).1).1.cents)) 1 = 2 ∧
    (1 : Nat) ≠ 2 := by
  have hwk : wkB.length = 1500 := by
    simp [wkB, List.length_append, rowsP_length]
  have hpop : popB.length = 2501 := by
    simp [popB, wkB, extraB, List.length_append, rowsP_length]
  have hz : Pt.mk 2501 (1 : ℚ) ∈ popB := by
    refine List.mem_append_right _ (List.mem_append_right _ ?_)
    simp
  refine ⟨seeded_popB, (List.sublist_append_left wkB extraB).subperm, hwk, hpop,
    ?_, hz, ?_, ?_, by norm_num⟩
  · rw [step1B]
    dsimp only
    rw [step2B]
  · rw [step1B]
    dsimp only
    rw [step2B]
    dsimp only
    have himg : (⟨2501, 1, 1⟩ : Asg ℚ) =
        ⟨(Pt.mk 2501 (1 : ℚ)).pid, (Pt.mk 2501 (1 : ℚ)).pos,
          closestID absd arr2B (Pt.mk 2501 (1 : ℚ)).pos⟩ := by
      rw [show closestID absd arr2B (Pt.mk 2501 (1 : ℚ)).pos = 1 from closest_arr2B_z]
    rw [expandAssign, himg]
    exact List.mem_map_of_mem _ hz
  · rw [step1B]
    dsimp only
    rw [step2B]
    dsimp only
    have harr : centroidArray 2 cents2B = [some (-8), some (7492/750)] := by
      norm_num [centroidArray, cents2B, List.range_succ, List.find?]
    rw [harr]
    norm_num [closestID, withIds, absd, abs]

end KmeansSpec
